import Mathlib

/-!
Verification of the `dev-activity` watcher/reporter (src/dev_activity.py)
against its natural-language specification.

The Python program is shallowly embedded as follows:
* A resolved filesystem path is a list of its segments (the output of
  `Path(...).resolve()`, without the leading anchor).  `str(path)` is modelled
  by `pathChars`, which renders the segments as the character list of the
  POSIX string form.
* Wall-clock timestamps (`datetime.now().timestamp()`, a float) are rationals.
* A `datetime` value is modelled by its date part (`strftime "%Y-%m-%d"`) and
  the remainder of its `isoformat`.
* Python dicts that the program builds incrementally are association lists
  kept in insertion order; dict mutation `d[k] = v` replaces in place or
  appends at the end, exactly as Python's insertion-ordered dicts do.
* `sorted(...)` (Timsort, a stable sort) is modelled by Mathlib's
  `List.insertionSort`, which is also stable; for the unique-key day sort the
  two agree because sorted permutations with unique keys are unique, and for
  the per-day count sort they agree because a stable sort's output is uniquely
  determined by: being a permutation, being sorted, and preserving the
  relative order of elements with equal keys.
* One line of `activity.jsonl`, as seen by `load_activity`, is `LogLine`:
  blank-or-unparseable (`junk`, the `json.JSONDecodeError`/blank `continue`
  paths), parseable JSON that is not an object (`scalar`, on which
  `entry.get` raises an uncaught `AttributeError`), or an object with
  optional string `date`/`project` fields (`rec`).  Values of other JSON
  types inside an object are not modelled.
-/

namespace DevActivity

/-! ## Path classification (src/dev_activity.py lines 48-61) -/

/-- Characters of `str(path)` for a resolved path given by its segments:
`["a", "b"]` renders as `/a/b`. -/
def pathChars (l : List String) : List Char :=
  (l.map (fun s => '/' :: s.data)).flatten

/-- Python's `str.startswith`, on character lists. -/
def strStartsWith (s pre : List Char) : Bool :=
  pre.isPrefixOf s

/-- `PurePath.relative_to`: the remaining segments if `root` is a segment
prefix of `full`, otherwise `none` (the `ValueError` caught at line 60). -/
def relative_to (full root : List String) : Option (List String) :=
  if root.isPrefixOf full then some (full.drop root.length) else none

/-- `get_project_name` (lines 48-61).  Both paths arrive already resolved;
an `OSError` during resolution (also mapped to `None` by the source) is
outside the embedding.  Mirrors: return `None` when `full == root` or the
string-prefix test fails; then `relative_to` (whose failure is caught and
mapped to `None`); then the first segment, or `None` when there is none. -/
def get_project_name (dev_root event_path : List String) : Option String :=
  if event_path = dev_root ∨ strStartsWith (pathChars event_path) (pathChars dev_root) = false then
    none
  else
    match relative_to event_path dev_root with
    | none => none
    | some [] => none
    | some (p :: _) => some p

/-! ## Noise filtering and the debounced record step (lines 31-45, 64-75, 113-125) -/

/-- `IGNORED_PATH_PARTS` (lines 31-34). -/
def IGNORED_PATH_PARTS : List String :=
  [".git", "node_modules", ".venv", "__pycache__", ".cursor", ".idea",
   "dist", "build", ".next", ".turbo", ".cache", "vendor", ".DS_Store"]

/-- `IGNORED_PROJECTS` (line 40). -/
def IGNORED_PROJECTS : List String := ["dev-activity"]

/-- `DEBOUNCE_SECONDS` (line 37). -/
def DEBOUNCE_SECONDS : ℚ := 300

/-- `should_ignore_path` (lines 64-75), on resolved paths: the path equals one
of the tool's own output files, or some segment is in the ignore set. -/
def should_ignore_path (path log_path graph_path : List String) : Bool :=
  path == log_path || path == graph_path ||
    path.any (fun part => IGNORED_PATH_PARTS.contains part)

/-- Association-list lookup mirroring Python `dict` lookup (first — and, for
the dicts this program builds, only — binding of the key). -/
def lookupA {β : Type} : List (String × β) → String → Option β
  | [], _ => none
  | (q, v) :: rest, k => if q = k then some v else lookupA rest k

/-- Python `dict` assignment `d[k] = v`: replace in place, or append. -/
def lastLogSet : List (String × ℚ) → String → ℚ → List (String × ℚ)
  | [], p, v => [(p, v)]
  | (q, w) :: rest, p, v =>
      if q = p then (q, v) :: rest else (q, w) :: lastLogSet rest p v

/-- The debounce decision of `_record` (lines 120-124): `last =
self._last_log.get(project, 0)`; reject when `now - last <
DEBOUNCE_SECONDS`, else accept and set `self._last_log[project] = now`.
Returns (accepted?, updated map). -/
def shouldRecord (last : List (String × ℚ)) (project : String) (now : ℚ) :
    Bool × List (String × ℚ) :=
  if now - (lookupA last project).getD 0 < DEBOUNCE_SECONDS then (false, last)
  else (true, lastLogSet last project now)

/-- `ActivityHandler._record` (lines 113-125): noise filter, classify,
ignored-project filter (`not project` also rejects the empty string),
debounce, then append.  Returns the updated debounce map and the project
logged by `log_activity`, if any. -/
def record (dev_root log_path graph_path : List String)
    (last : List (String × ℚ)) (src_path : List String) (now : ℚ) :
    List (String × ℚ) × Option String :=
  if should_ignore_path src_path log_path graph_path then (last, none)
  else
    match get_project_name dev_root src_path with
    | none => (last, none)
    | some project =>
        if project = "" ∨ project ∈ IGNORED_PROJECTS then (last, none)
        else
          match shouldRecord last project now with
          | (true, m) => (m, some project)
          | (false, m) => (m, none)

/-! ## The written record (lines 78-86 and 363-389) -/

/-- One `datetime.now()` sample: the date part (`strftime "%Y-%m-%d"`) and
the rest of `isoformat()` after the `T`. -/
structure PyTime where
  dayStr : String
  restStr : String
deriving DecidableEq

/-- `datetime.isoformat()`. -/
def pyIsoformat (t : PyTime) : String := t.dayStr ++ "T" ++ t.restStr

/-- One line of `activity.jsonl`. -/
structure ActivityEntry where
  date : String
  ts : String
  project : String
deriving DecidableEq

/-- `log_activity` (lines 78-86).  The source calls `datetime.now()` twice —
once for `date` (line 81) and once for `ts` (line 82) — so the entry is a
function of the two consecutive clock samples. -/
def log_activity (tNow1 tNow2 : PyTime) (project : String) : ActivityEntry :=
  { date := tNow1.dayStr, ts := pyIsoformat tNow2, project := project }

/-- The calendar-date portion of an ISO timestamp string: its first 10
characters. -/
def datePortion (s : String) : String := s.take 10

/-- One backfill entry (lines 363-389): given a commit's `committer.date`
string and repository name, `day = date_str[:10]` and `ts` is the string
with a trailing `Z` rewritten (via `str.replace`) to `+00:00`. -/
def backfillEntry (date_str repo : String) : ActivityEntry :=
  { date := date_str.take 10,
    ts := if date_str.endsWith "Z" then date_str.replace "Z" "+00:00" else date_str,
    project := repo }

/-! ## Aggregation: `load_activity` (lines 157-175) -/

/-- One line of the log as `load_activity` can observe it (see module
comment): `junk` for blank lines and `json.JSONDecodeError`, `scalar` for
JSON that parses but is not an object, `obj` for an object with optional
string fields. -/
inductive LogLine where
  | junk : LogLine
  | scalar : LogLine
  | obj : Option String → Option String → LogLine
deriving DecidableEq

/-- What the loop body (lines 163-174) does with one line: `none` means an
uncaught exception (the `AttributeError` from `entry.get` on a non-dict);
`some none` means the line is skipped (blank, `JSONDecodeError`, missing or
falsy `date`/`project`); `some (some (d, p))` means `by_date[d][p] += 1`. -/
def lineStep : LogLine → Option (Option (String × String))
  | .junk => some none
  | .scalar => none
  | .obj d p =>
      some (match d, p with
        | some ds, some ps => if ds = "" ∨ ps = "" then none else some (ds, ps)
        | _, _ => none)

/-- Runs `lineStep` down the file, collecting the counted `(date, project)`
pairs in order; `none` if any line raises. -/
def collectKVs : List LogLine → Option (List (String × String))
  | [] => some []
  | l :: rest =>
      match lineStep l with
      | none => none
      | some none => collectKVs rest
      | some (some kv) => (collectKVs rest).map (fun t => kv :: t)

/-- `date -> (project -> count)`, both levels in Python-dict insertion
order (the outer level is sorted by day at the end of `load_activity`). -/
abbrev DayAgg := List (String × List (String × Nat))

/-- Inner `by_date[d][p] += 1` on the project dict: bump in place, or append
`(p, 1)`. -/
def bumpProj : List (String × Nat) → String → List (String × Nat)
  | [], p => [(p, 1)]
  | (q, c) :: rest, p =>
      if q = p then (q, c + 1) :: rest else (q, c) :: bumpProj rest p

/-- Outer `by_date[d][p] += 1` on the date dict. -/
def bumpDate : DayAgg → String → String → DayAgg
  | [], d, p => [(d, [(p, 1)])]
  | (e, ps) :: rest, d, p =>
      if e = d then (e, bumpProj ps p) :: rest else (e, ps) :: bumpDate rest d p

/-- Fold the counted pairs into the date dict, in file order. -/
def buildAgg (pairs : List (String × String)) : DayAgg :=
  pairs.foldl (fun acc kv => bumpDate acc kv.1 kv.2) []

/-- Python's string `<`: code-point lexicographic comparison. -/
def ltChars : List Char → List Char → Bool
  | [], [] => false
  | [], _ :: _ => true
  | _ :: _, [] => false
  | a :: as, b :: bs =>
      if a.toNat < b.toNat then true
      else if b.toNat < a.toNat then false
      else ltChars as bs

/-- Day-string order for `sorted(by_date)`: `a ≤ b` as `¬ b < a` on Python's
code-point lexicographic string order. -/
def dayLe (a b : String × List (String × Nat)) : Prop :=
  ltChars b.1.data a.1.data = false

instance : DecidableRel dayLe := fun a b =>
  inferInstanceAs (Decidable (ltChars b.1.data a.1.data = false))

/-- The final `{d: dict(by_date[d]) for d in sorted(by_date)}` (line 175):
sort the (unique) day keys ascending. -/
def sortDays (m : DayAgg) : DayAgg := List.insertionSort dayLe m

/-- `load_activity` (lines 157-175).  `none` models the uncaught exception on
a `scalar` line aborting the whole load. -/
def load_activity (lines : List LogLine) : Option DayAgg :=
  (collectKVs lines).map (fun pairs => sortDays (buildAgg pairs))

/-- The count recorded for `(d, p)` in an aggregation (0 when either key is
absent). -/
def countOf (agg : DayAgg) (d p : String) : Nat :=
  (lookupA ((lookupA agg d).getD []) p).getD 0

/-- The number of counted `(d, p)` pairs in a pair list. -/
def countKV (pairs : List (String × String)) (d p : String) : Nat :=
  (pairs.filter (fun kv => kv.1 == d && kv.2 == p)).length

/-! ## Colors and the calendar layout: `generate_graph` (lines 178-276) -/

/-- `PROJECT_HUES` (lines 43-45). -/
def PROJECT_HUES : List Nat := [0, 30, 60, 120, 180, 220, 260, 300]

/-- `project_color` (lines 178-181).  As in the source, the `project`
argument is unused. -/
def project_color (project : String) (index : Nat) : String :=
  "hsl(" ++ toString (PROJECT_HUES.getD (index % PROJECT_HUES.length) 0) ++ ", 55%, 45%)"

/-- `project_color_light` (lines 184-187). -/
def project_color_light (project : String) (index : Nat) : String :=
  "hsl(" ++ toString (PROJECT_HUES.getD (index % PROJECT_HUES.length) 0) ++ ", 55%, 55%)"

/-- `project_order` (lines 197-204): first-appearance order over the
day-sorted aggregation (outer loop over sorted days, inner loop in each
day's insertion order).  The `seen` set is the membership of the
accumulator. -/
def project_order (agg : DayAgg) : List String :=
  agg.foldl
    (fun acc de =>
      de.2.foldl (fun acc2 pc => if pc.1 ∈ acc2 then acc2 else acc2 ++ [pc.1]) acc)
    []

/-- The per-day descending-count order (line 244):
`sorted(projs.items(), key=lambda x: -x[1])` — a stable sort, so ties keep
the day bucket's insertion order.  `insertionSort` with this total preorder
is also stable, and a stable sort's output is unique. -/
def descCount (a b : String × Nat) : Prop := b.2 ≤ a.2

instance : DecidableRel descCount := fun a b => Nat.decLe b.2 a.2

instance : IsTotal (String × Nat) descCount := ⟨fun a b => le_total b.2 a.2⟩

instance : IsTrans (String × Nat) descCount := ⟨fun _ _ _ h1 h2 => Nat.le_trans h2 h1⟩

def sortDesc (projs : List (String × Nat)) : List (String × Nat) :=
  List.insertionSort descCount projs

/-- Intensity tier (line 246): `"high" if total >= 10 else "mid" if
total >= 3 else "low"`. -/
def intensity (total : Nat) : String :=
  if 10 ≤ total then "high" else if 3 ≤ total then "mid" else "low"

/-- Tooltip body (line 247): `", ".join(f"{p}: {c}" ...)` over the sorted
day list. -/
def tipFor (proj_list : List (String × Nat)) : String :=
  String.intercalate ", " (proj_list.map (fun pc => pc.1 ++ ": " ++ toString pc.2))

/-- Band / fill color (lines 250 and 258): the light variant when the tier
is `high`, else the base color. -/
def colorFor (cIdx : String → Nat) (tier : String) (p : String) : String :=
  if tier = "high" then project_color_light p (cIdx p) else project_color p (cIdx p)

/-- The gradient stops of a multi-project cell (lines 256-262): for each
project in day order, two stops `(color, pct)` and `(color, pct_next)` where
`pct` is the prefix-count share of the cell in percent.  `before` is the
running prefix sum `sum(c for _, c in proj_list[:i])`. -/
def bandStops (cIdx : String → Nat) (tier : String) (total : ℚ) :
    List (String × Nat) → ℚ → List (String × ℚ)
  | [], _ => []
  | (p, c) :: rest, before =>
      (colorFor cIdx tier p, before / total * 100) ::
      (colorFor cIdx tier p, (before + (c : ℚ)) / total * 100) ::
      bandStops cIdx tier total rest (before + (c : ℚ))

/-- A day cell of the grid, keeping the structured content of the emitted
`<span>` (class tier, background, title); the markup itself is an external
rendering concern per the spec. -/
inductive Cell where
  | pad : Cell
  | noActivity : String → Cell
  | single : String → String → String → Cell
  | multi : String → List (String × ℚ) → String → Cell
deriving DecidableEq

/-- The title string of a cell. -/
def cellTitle : Cell → String
  | .pad => ""
  | .noActivity date => date
  | .single _ _ t => t
  | .multi _ _ t => t

/-- True for the two styles of cell with no recorded activity. -/
def isEmptyCell : Cell → Bool
  | .pad => true
  | .noActivity _ => true
  | _ => false

/-- Cell construction for one day (lines 239-266): the empty cell when the
day has no bucket; otherwise sort the bucket by descending count, compute
total, tier and tooltip, and emit a solid cell for a single project or a
proportional gradient for several. -/
def cellFor (cIdx : String → Nat) (date_key : String) (projs : List (String × Nat)) : Cell :=
  if projs = [] then Cell.noActivity date_key
  else
    let proj_list := sortDesc projs
    let total := (projs.map Prod.snd).sum
    let tier := intensity total
    let title := date_key ++ ": " ++ tipFor proj_list
    match proj_list with
    | [(p, _c)] => Cell.single tier (colorFor cIdx tier p) title
    | other => Cell.multi tier (bandStops cIdx tier (total : ℚ) other 0) title

/-! ## Proleptic-Gregorian date arithmetic for the month range (lines 210-241)

`datetime.date` arithmetic is modelled with the standard civil-calendar
day-number conversions (using floor division, as Python does; `Int.ediv`
coincides with floor division for the positive divisors used here). -/

/-- Days since 1970-01-01 of a civil date. -/
def daysFromCivil (y m d : Int) : Int :=
  let yy := if m ≤ 2 then y - 1 else y
  let era := yy / 400
  let yoe := yy - era * 400
  let mp := if 2 < m then m - 3 else m + 9
  let doy := (153 * mp + 2) / 5 + d - 1
  let doe := yoe * 365 + yoe / 4 - yoe / 100 + doy
  era * 146097 + doe - 719468

/-- Civil date of a day number since 1970-01-01. -/
def civilFromDays (z0 : Int) : Int × Int × Int :=
  let z := z0 + 719468
  let era := z / 146097
  let doe := z - era * 146097
  let yoe := (doe - doe / 1460 + doe / 36524 - doe / 146096) / 365
  let yr := yoe + era * 400
  let doy := doe - (365 * yoe + yoe / 4 - yoe / 100)
  let mp := (5 * doy + 2) / 153
  let d := doy - (153 * mp + 2) / 5 + 1
  let m := if mp < 10 then mp + 3 else mp - 9
  (if m ≤ 2 then yr + 1 else yr, m, d)

/-- `datetime(y, m, 1).weekday()` (Monday = 0); 1970-01-01 was a Thursday. -/
def weekdayMon0 (y m d : Int) : Int :=
  (daysFromCivil y m d + 3) % 7

/-- Gregorian leap year. -/
def isLeap (y : Int) : Bool :=
  y % 4 = 0 ∧ (y % 100 ≠ 0 ∨ y % 400 = 0)

/-- `calendar.monthrange(year, month)[1]`. -/
def daysInMonth (y m : Int) : Int :=
  if m = 2 then (if isLeap y then 29 else 28)
  else if m = 4 ∨ m = 6 ∨ m = 9 ∨ m = 11 then 30
  else 31

/-- `datetime.strptime(d, "%Y-%m-%d")` on a well-formed date key.  (On a
malformed key the Python call raises; garbage digits here default to 0.
The claims only use well-formed keys.) -/
def parseDate (s : String) : Int × Int × Int :=
  (((s.take 4).toNat?.getD 0 : Nat), (((s.drop 5).take 2).toNat?.getD 0 : Nat),
   (((s.drop 8).take 2).toNat?.getD 0 : Nat))

/-- Strict `date` comparison (lexicographic on year, month, day). -/
def dateLt (a b : Int × Int × Int) : Prop :=
  a.1 < b.1 ∨ (a.1 = b.1 ∧ (a.2.1 < b.2.1 ∨ (a.2.1 = b.2.1 ∧ a.2.2 < b.2.2)))

instance : DecidableRel dateLt := fun a b => by unfold dateLt; exact inferInstance

/-- Python `min` over a nonempty list: keep the earlier item unless a later
one is strictly smaller. -/
def listMin (x : Int × Int × Int) (xs : List (Int × Int × Int)) : Int × Int × Int :=
  xs.foldl (fun a b => if dateLt b a then b else a) x

/-- `first` (lines 212-215): the earliest parsed day key of the aggregation,
or `today - timedelta(days=365)` when there are no records. -/
def firstDay (agg : DayAgg) (today : Int × Int × Int) : Int × Int × Int :=
  match agg with
  | [] => civilFromDays (daysFromCivil today.1 today.2.1 today.2.2 - 365)
  | de :: rest => listMin (parseDate de.1) (rest.map (fun x => parseDate x.1))

/-- The month-iteration loop body (lines 219-226), with its iteration count
made explicit: each pass appends `(y, m)` and advances one month.  For the
in-range month numbers `1..12` that `datetime` guarantees, the loop guard
`(y, m) <= (ey, em)` holds for exactly
`((ey*12+em) - (y*12+m) + 1).toNat` passes (see `monthsLoop`). -/
def monthsFrom : Int → Int → Nat → List (Int × Int)
  | _, _, 0 => []
  | y, m, Nat.succ k =>
      (y, m) :: (if 12 ≤ m then monthsFrom (y + 1) 1 k else monthsFrom y (m + 1) k)

/-- The `while (y, m) <= (end.year, end.month)` loop of lines 219-226. -/
def monthsLoop (y m ey em : Int) : List (Int × Int) :=
  monthsFrom y m ((ey * 12 + em) - (y * 12 + m) + 1).toNat

/-- The month range of the report (lines 210-226): from the month of
`firstDay` (the `day=1` truncation of line 217 only affects the day) through
`today`'s month. -/
def monthsOf (agg : DayAgg) (today : Int × Int × Int) : List (Int × Int) :=
  monthsLoop (firstDay agg today).1 (firstDay agg today).2.1 today.1 today.2.1

/-- `f"{month:02d}"` / `f"{day:02d}"`. -/
def pad2 (n : Int) : String := if n < 10 then "0" ++ toString n else toString n

/-- `date_key = f"{year}-{month:02d}-{day:02d}"` (line 238). -/
def dateKeyStr (y m d : Int) : String :=
  toString y ++ "-" ++ pad2 m ++ "-" ++ pad2 d

/-- One month row (lines 229-266): leading weekday padding cells, then one
cell per day of the month. -/
def monthRowCells (agg : DayAgg) (cIdx : String → Nat) (y m : Int) : List Cell :=
  List.replicate (weekdayMon0 y m 1).toNat Cell.pad ++
    (List.range (daysInMonth y m).toNat).map (fun i =>
      let key := dateKeyStr y m ((i : Int) + 1)
      cellFor cIdx key ((lookupA agg key).getD []))

/-- The legend (lines 273-276): one `(base color, name)` per project in
first-appearance order. -/
def legendOf (agg : DayAgg) : List (String × String) :=
  (project_order agg).enum.map (fun ip => (project_color ip.2 ip.1, ip.2))

/-- The structured layout emitted by `generate_graph` for a loaded
aggregation and a given `today`: the month rows (with their cells) and the
legend. -/
def generateLayout (agg : DayAgg) (today : Int × Int × Int) :
    List ((Int × Int) × List Cell) × List (String × String) :=
  let po := project_order agg
  let cIdx := fun p => po.indexOf p
  ((monthsOf agg today).map (fun ym => (ym, monthRowCells agg cIdx ym.1 ym.2)),
   legendOf agg)

/-! ## Auxiliary definitions for the claims -/

/-- Modelled from the spec's words, for comparison with the source's
`sortDesc` (claim C6): order a day's projects by descending occurrence
count, breaking ties by the projects' first-appearance positions in the
global `order` list. -/
def specTieRel (order : List String) (a b : String × Nat) : Prop :=
  b.2 < a.2 ∨ (b.2 = a.2 ∧ order.indexOf a.1 ≤ order.indexOf b.1)

instance (order : List String) : DecidableRel (specTieRel order) := fun a b => by
  unfold specTieRel; exact inferInstance

/-- The day order the spec's words describe (claim C6). -/
def claimedDayOrder (order : List String) (projs : List (String × Nat)) :
    List (String × Nat) :=
  List.insertionSort (specTieRel order) projs

/-- The month with 1-based linear index `n` (inverse of `(y, m) ↦ y*12+m`
for `1 ≤ m ≤ 12`). -/
def ofIdx (n : Int) : Int × Int :=
  ((n - 1) / 12, (n - 1) % 12 + 1)

/-- Concrete log for claim C6's tie-break counterexample: project `A` on
day 1; projects `B` then `A` (in that line order) on day 2. -/
def c6Lines : List LogLine :=
  [LogLine.obj (some "2024-01-01") (some "A"),
   LogLine.obj (some "2024-01-02") (some "B"),
   LogLine.obj (some "2024-01-02") (some "A")]

/-- Concrete log for claim C7's scenario: 8 × `alpha` and 2 × `beta` on
2024-01-05. -/
def c7Lines : List LogLine :=
  List.replicate 8 (LogLine.obj (some "2024-01-05") (some "alpha")) ++
    List.replicate 2 (LogLine.obj (some "2024-01-05") (some "beta"))

/-- The thirteen months 2023-03 .. 2024-03 (claim C8's scenario). -/
def expectedMonths : List (Int × Int) :=
  [(2023, 3), (2023, 4), (2023, 5), (2023, 6), (2023, 7), (2023, 8), (2023, 9),
   (2023, 10), (2023, 11), (2023, 12), (2024, 1), (2024, 2), (2024, 3)]

/-! ## Helper lemmas: path classification -/

theorem pathChars_append (a b : List String) :
    pathChars (a ++ b) = pathChars a ++ pathChars b := by
  simp [pathChars]

theorem gpn_root (root : List String) : get_project_name root root = none := by
  simp [get_project_name]

theorem gpn_inside (root : List String) (p : String) (rest : List String) :
    get_project_name root (root ++ p :: rest) = some p := by
  have hne : root ++ p :: rest ≠ root := by
    intro h
    have := congrArg List.length h
    simp at this
  have hpre : root.isPrefixOf (root ++ p :: rest) = true := by
    rw [List.isPrefixOf_iff_prefix]; exact List.prefix_append _ _
  have hsw : strStartsWith (pathChars (root ++ p :: rest)) (pathChars root) = true := by
    unfold strStartsWith
    rw [List.isPrefixOf_iff_prefix, pathChars_append]
    exact List.prefix_append _ _
  have hdrop : (root ++ p :: rest).drop root.length = p :: rest := List.drop_left _ _
  simp [get_project_name, relative_to, hne, hsw, hpre, hdrop]

theorem gpn_outside (root full : List String) (h : ¬ root <+: full) :
    get_project_name root full = none := by
  have hne : full ≠ root := by rintro rfl; exact h (List.prefix_refl _)
  have hpre : ¬ root.isPrefixOf full = true := by
    rw [List.isPrefixOf_iff_prefix]; exact h
  by_cases hsw : strStartsWith (pathChars full) (pathChars root) = false
  · simp [get_project_name, hsw]
  · simp [get_project_name, relative_to, hne, hsw, hpre]

/-! ## Helper lemmas: debounce state -/

theorem lookupA_lastLogSet_self :
    ∀ (m : List (String × ℚ)) (p : String) (v : ℚ),
      lookupA (lastLogSet m p v) p = some v
  | [], p, v => by simp [lastLogSet, lookupA]
  | (q, w) :: rest, p, v => by
      by_cases h : q = p
      · subst h; simp [lastLogSet, lookupA]
      · simp [lastLogSet, lookupA, h, lookupA_lastLogSet_self rest p v]

/-! ## Claims C1, C10, C9, C2, C5 -/

/-- Claim C1: for every root and event path, `get_project_name` returns the
first segment of the resolved path relative to the resolved root when the
path is strictly inside the root, and `none` when the path is the root
itself, lies outside it, or relativization fails (the caught `ValueError`
— both no-prefix cases; a failure of `resolve()` itself is outside the
embedding, which works on resolved paths). -/
theorem get_project_name_classification (root full : List String) :
    (∀ p rest, full = root ++ p :: rest → get_project_name root full = some p) ∧
    ((¬ ∃ p rest, full = root ++ p :: rest) → get_project_name root full = none) := by
  constructor
  · rintro p rest rfl
    exact gpn_inside root p rest
  · intro h
    by_cases hp : root <+: full
    · obtain ⟨t, rfl⟩ := hp
      cases t with
      | nil => simpa using gpn_root root
      | cons p rest => exact absurd ⟨p, rest, rfl⟩ h
    · exact gpn_outside root full hp

/-- Witness for C1 at concrete paths: a path strictly inside the root, the
root itself, and a sibling path outside the root. -/
theorem get_project_name_classification_witness :
    get_project_name ["home", "u", "dev"] ["home", "u", "dev", "alpha", "src", "main.py"]
        = some "alpha" ∧
    get_project_name ["home", "u", "dev"] ["home", "u", "dev"] = none ∧
    get_project_name ["home", "u", "dev"] ["home", "u", "other", "x"] = none := by
  refine ⟨?_, ?_, ?_⟩
  · exact (get_project_name_classification ["home", "u", "dev"] _).1 "alpha" ["src", "main.py"] rfl
  · refine (get_project_name_classification ["home", "u", "dev"] _).2 ?_
    rintro ⟨p, rest, h⟩
    have := congrArg List.length h
    simp at this
  · refine (get_project_name_classification ["home", "u", "dev"] _).2 ?_
    rintro ⟨p, rest, h⟩
    simp at h

/-- Claim C10: a direct child of the watched root — such as a plain file
`<root>/notes.txt` — is classified as a project named after itself, not as
not-applicable: the classifier never distinguishes files from directories. -/
theorem root_direct_child_classified (root : List String) (child : String) :
    get_project_name root (root ++ [child]) = some child :=
  gpn_inside root child []

/-- Claim C9: a file event whose path contains an ignored segment is
discarded by `_record` before classification and before the debouncer: the
debounce map is returned unchanged and nothing is logged, whatever the
prior debounce state. -/
theorem ignored_segment_short_circuit (dev_root log_path graph_path : List String)
    (last : List (String × ℚ)) (src_path : List String) (now : ℚ)
    (h : ∃ part ∈ src_path, part ∈ IGNORED_PATH_PARTS) :
    record dev_root log_path graph_path last src_path now = (last, none) := by
  obtain ⟨part, hmem, hpart⟩ := h
  have hany : src_path.any (fun part => IGNORED_PATH_PARTS.contains part) = true := by
    rw [List.any_eq_true]
    exact ⟨part, hmem, by simpa using hpart⟩
  have hign : should_ignore_path src_path log_path graph_path = true := by
    simp [should_ignore_path, hany]
    exact Or.inr ⟨part, hmem, hpart⟩
  simp [record, hign]

/-- Witness for C9: an event under `<root>/projectA/node_modules/` with a
nonempty debounce map. -/
theorem ignored_segment_short_circuit_witness :
    record ["home", "u", "dev"] ["cwd", "activity.jsonl"] ["cwd", "activity-graph.html"]
        [("projectA", (50 : ℚ))] ["home", "u", "dev", "projectA", "node_modules", "x.js"]
        1000 = ([("projectA", (50 : ℚ))], none) :=
  ignored_segment_short_circuit _ _ _ _ _ _ ⟨"node_modules", by decide, by decide⟩

/-- Counterexample to claim C2's final conjunct: the code gives a project
with no last-seen entry the default last-seen time 0
(`self._last_log.get(project, 0)`), so at `now = 100` (less than the 300 s
cooldown past the epoch) the project is rejected even though it has never
been seen. -/
theorem debounce_absent_entry_counterexample :
    lookupA ([] : List (String × ℚ)) "p" = none ∧
    (shouldRecord [] "p" 100).1 = false := by
  refine ⟨rfl, ?_⟩
  norm_num [shouldRecord, lookupA, DEBOUNCE_SECONDS]

/-- Claim C2 (amended): if the debouncer accepts P at `t1`, then at `t2`
with `t2 - t1 < cooldown` it rejects P and leaves the state unchanged,
and with `t2 - t1 ≥ cooldown` it accepts P and sets P's last-seen entry to
`t2`; a project with no last-seen entry is treated as last seen at time 0,
so it is accepted exactly when `now ≥ cooldown` (hence always, for
realistic epoch timestamps). -/
theorem debounce_cooldown_amended (m : List (String × ℚ)) (p : String) (t1 t2 : ℚ) :
    ((shouldRecord m p t1).1 = true → t2 - t1 < DEBOUNCE_SECONDS →
      shouldRecord (shouldRecord m p t1).2 p t2 = (false, (shouldRecord m p t1).2)) ∧
    ((shouldRecord m p t1).1 = true → DEBOUNCE_SECONDS ≤ t2 - t1 →
      (shouldRecord (shouldRecord m p t1).2 p t2).1 = true ∧
      lookupA (shouldRecord (shouldRecord m p t1).2 p t2).2 p = some t2) ∧
    (lookupA m p = none → ((shouldRecord m p t1).1 = true ↔ DEBOUNCE_SECONDS ≤ t1)) := by
  refine ⟨?_, ?_, ?_⟩
  · intro h1 hlt
    have hc : ¬ t1 - (lookupA m p).getD 0 < DEBOUNCE_SECONDS := by
      intro hc
      simp [shouldRecord, hc] at h1
    have hs : shouldRecord m p t1 = (true, lastLogSet m p t1) := by
      simp [shouldRecord, hc]
    rw [hs]
    simp [shouldRecord, lookupA_lastLogSet_self, hlt]
  · intro h1 hge
    have hc : ¬ t1 - (lookupA m p).getD 0 < DEBOUNCE_SECONDS := by
      intro hc
      simp [shouldRecord, hc] at h1
    have hs : shouldRecord m p t1 = (true, lastLogSet m p t1) := by
      simp [shouldRecord, hc]
    rw [hs]
    have h2 : shouldRecord (lastLogSet m p t1) p t2 =
        (true, lastLogSet (lastLogSet m p t1) p t2) := by
      simp [shouldRecord, lookupA_lastLogSet_self, not_lt.mpr hge]
    rw [h2]
    exact ⟨rfl, lookupA_lastLogSet_self _ _ _⟩
  · intro hnone
    unfold shouldRecord
    rw [hnone]
    simp only [Option.getD_none, sub_zero]
    by_cases hc : t1 < DEBOUNCE_SECONDS
    · simp [hc, not_le.mpr hc]
    · simp [hc, not_lt.mp hc]

/-- Witness for C2 (amended) at a concrete run: accept at t=1000 from the
empty state, reject at t=1100, accept again at t=1300 with the entry
updated, and the absent-entry rule at t=1000. -/
theorem debounce_cooldown_amended_witness :
    shouldRecord (shouldRecord [] "a" 1000).2 "a" 1100 = (false, (shouldRecord [] "a" 1000).2) ∧
    (shouldRecord (shouldRecord [] "a" 1000).2 "a" 1300).1 = true ∧
    lookupA (shouldRecord (shouldRecord [] "a" 1000).2 "a" 1300).2 "a" = some 1300 ∧
    ((shouldRecord ([] : List (String × ℚ)) "a" 1000).1 = true ↔ DEBOUNCE_SECONDS ≤ (1000 : ℚ)) := by
  have hacc : (shouldRecord ([] : List (String × ℚ)) "a" 1000).1 = true := by
    norm_num [shouldRecord, lookupA, DEBOUNCE_SECONDS]
  refine ⟨?_, ?_, ?_, ?_⟩
  · exact (debounce_cooldown_amended [] "a" 1000 1100).1 hacc
      (by norm_num [DEBOUNCE_SECONDS])
  · exact ((debounce_cooldown_amended [] "a" 1000 1300).2.1 hacc
      (by norm_num [DEBOUNCE_SECONDS])).1
  · exact ((debounce_cooldown_amended [] "a" 1000 1300).2.1 hacc
      (by norm_num [DEBOUNCE_SECONDS])).2
  · exact (debounce_cooldown_amended [] "a" 1000 1000).2.2 rfl

/-- Claim C5 fails on the watch path: `log_activity` calls `datetime.now()`
twice — once for `date` (line 81) and once for `ts` (line 82) — so when the
two samples straddle midnight the written record's `date` differs from the
calendar-date portion of its `ts`, violating the invariant the spec states.
This theorem evaluates the embedded code at such a pair of samples. -/
theorem log_activity_date_ts_mismatch :
    (log_activity ⟨"2024-01-01", "23:59:59.999999"⟩ ⟨"2024-01-02", "00:00:00.000001"⟩
        "proj").date = "2024-01-01" ∧
    datePortion ((log_activity ⟨"2024-01-01", "23:59:59.999999"⟩
        ⟨"2024-01-02", "00:00:00.000001"⟩ "proj").ts) = "2024-01-02" ∧
    (log_activity ⟨"2024-01-01", "23:59:59.999999"⟩ ⟨"2024-01-02", "00:00:00.000001"⟩
        "proj").date ≠
      datePortion ((log_activity ⟨"2024-01-01", "23:59:59.999999"⟩
        ⟨"2024-01-02", "00:00:00.000001"⟩ "proj").ts) := by
  refine ⟨rfl, by decide, by decide⟩

/-! ## Helper lemmas: aggregation -/

theorem lookupA_bumpProj :
    ∀ (ps : List (String × Nat)) (p q : String),
      (lookupA (bumpProj ps p) q).getD 0 =
        (lookupA ps q).getD 0 + if p = q then 1 else 0
  | [], p, q => by
      by_cases h : p = q
      · subst h; simp [bumpProj, lookupA]
      · simp [bumpProj, lookupA, h]
  | (r, c) :: rest, p, q => by
      by_cases hrp : r = p
      · subst hrp
        by_cases hrq : r = q
        · subst hrq; simp [bumpProj, lookupA]
        · simp [bumpProj, lookupA, hrq]
      · by_cases hrq : r = q
        · subst hrq
          have hpq : ¬ p = r := fun h => hrp h.symm
          simp [bumpProj, lookupA, hrp, hpq]
        · simp [bumpProj, lookupA, hrp, hrq, lookupA_bumpProj rest p q]

theorem countOf_bumpDate :
    ∀ (m : DayAgg) (d p d' p' : String),
      countOf (bumpDate m d p) d' p' =
        countOf m d' p' + if d = d' ∧ p = p' then 1 else 0
  | [], d, p, d', p' => by
      by_cases hd : d = d'
      · subst hd
        by_cases hp : p = p'
        · subst hp; simp [bumpDate, countOf, lookupA]
        · simp [bumpDate, countOf, lookupA, hp]
      · simp [bumpDate, countOf, lookupA, hd]
  | (e, ps) :: rest, d, p, d', p' => by
      by_cases hed : e = d
      · subst hed
        by_cases hed' : e = d'
        · subst hed'
          by_cases hp : p = p'
          · simp [bumpDate, countOf, lookupA, lookupA_bumpProj, hp]
          · simp [bumpDate, countOf, lookupA, lookupA_bumpProj, hp]
        · simp [bumpDate, countOf, lookupA, hed']
      · by_cases hed' : e = d'
        · subst hed'
          have hde : ¬ (d = e ∧ p = p') := fun h => hed h.1.symm
          simp [bumpDate, countOf, lookupA, hed, hde]
        · have ih := countOf_bumpDate rest d p d' p'
          simp only [countOf] at ih
          simp only [bumpDate, if_neg hed, countOf, lookupA, if_neg hed']
          exact ih

theorem countOf_foldl :
    ∀ (pairs : List (String × String)) (acc : DayAgg) (d p : String),
      countOf (pairs.foldl (fun a kv => bumpDate a kv.1 kv.2) acc) d p =
        countOf acc d p + countKV pairs d p
  | [], acc, d, p => by simp [countKV]
  | kv :: rest, acc, d, p => by
      rw [List.foldl_cons, countOf_foldl rest (bumpDate acc kv.1 kv.2) d p,
        countOf_bumpDate]
      by_cases h : kv.1 = d ∧ kv.2 = p
      · have hb : (kv.1 == d && kv.2 == p) = true := by
          simp [Bool.and_eq_true, beq_iff_eq]; exact h
        simp [countKV, List.filter_cons, hb, h]
        omega
      · have hb : ¬ (kv.1 == d && kv.2 == p) = true := by
          simpa [Bool.and_eq_true, beq_iff_eq] using h
        simp [countKV, List.filter_cons, hb, h]

theorem keys_bumpDate :
    ∀ (m : DayAgg) (d p : String),
      (bumpDate m d p).map Prod.fst =
        if d ∈ m.map Prod.fst then m.map Prod.fst else m.map Prod.fst ++ [d]
  | [], d, p => by simp [bumpDate]
  | (e, ps) :: rest, d, p => by
      by_cases hed : e = d
      · subst hed; simp [bumpDate]
      · have hde : ¬ d = e := fun h => hed h.symm
        by_cases hmem : d ∈ rest.map Prod.fst
        · simp [bumpDate, hed, keys_bumpDate rest d p, hmem, hde]
        · simp [bumpDate, hed, keys_bumpDate rest d p, hmem, hde]

theorem nodupKeys_foldl :
    ∀ (pairs : List (String × String)) (acc : DayAgg),
      (acc.map Prod.fst).Nodup →
      ((pairs.foldl (fun a kv => bumpDate a kv.1 kv.2) acc).map Prod.fst).Nodup
  | [], acc, h => by simpa using h
  | kv :: rest, acc, h => by
      rw [List.foldl_cons]
      refine nodupKeys_foldl rest _ ?_
      rw [keys_bumpDate]
      by_cases hmem : kv.1 ∈ acc.map Prod.fst
      · simpa [hmem] using h
      · simp only [hmem, if_neg, ite_false]
        rw [List.nodup_append]
        refine ⟨h, List.nodup_singleton _, ?_⟩
        intro x hx hxk
        simp at hxk
        subst hxk
        exact hmem hx

theorem lookupA_perm {β : Type} :
    ∀ {m1 m2 : List (String × β)}, List.Perm m1 m2 →
      (m1.map Prod.fst).Nodup → ∀ k, lookupA m1 k = lookupA m2 k := by
  intro m1 m2 h
  induction h with
  | nil => intro _ k; rfl
  | cons x h ih =>
      intro hnd k
      obtain ⟨x1, x2⟩ := x
      rw [List.map_cons] at hnd
      have hnd' := (List.nodup_cons.mp hnd).2
      by_cases hx : x1 = k
      · simp [lookupA, hx]
      · simpa [lookupA, hx] using ih hnd' k
  | swap x y l =>
      intro hnd k
      obtain ⟨x1, x2⟩ := x
      obtain ⟨y1, y2⟩ := y
      rw [List.map_cons, List.map_cons] at hnd
      have hyx : y1 ≠ x1 := by
        intro he
        exact (List.nodup_cons.mp hnd).1 (he ▸ List.mem_cons_self _ _)
      by_cases h1 : y1 = k
      · subst h1
        simp [lookupA, Ne.symm hyx]
      · by_cases h2 : x1 = k
        · subst h2
          simp [lookupA, h1]
        · simp [lookupA, h1, h2]
  | trans h1 h2 ih1 ih2 =>
      intro hnd k
      rw [ih1 hnd k, ih2 (((h1.map Prod.fst).nodup_iff).mp hnd) k]

theorem countOf_sortDays (m : DayAgg) (h : (m.map Prod.fst).Nodup)
    (d p : String) : countOf (sortDays m) d p = countOf m d p := by
  unfold countOf
  have hperm : List.Perm (sortDays m) m := List.perm_insertionSort dayLe m
  have hnd : ((sortDays m).map Prod.fst).Nodup :=
    ((hperm.map Prod.fst).nodup_iff).mpr h
  rw [lookupA_perm hperm hnd d]

theorem countOf_loadAgg (pairs : List (String × String)) (d p : String) :
    countOf (sortDays (buildAgg pairs)) d p = countKV pairs d p := by
  unfold buildAgg
  rw [countOf_sortDays _ (nodupKeys_foldl pairs [] (by simp))]
  have := countOf_foldl pairs [] d p
  simpa [countOf, lookupA] using this

theorem collectKVs_append :
    ∀ (l1 l2 : List LogLine),
      collectKVs (l1 ++ l2) =
        (collectKVs l1).bind (fun a => (collectKVs l2).map (fun b => a ++ b))
  | [], l2 => by
      simp only [List.nil_append, collectKVs, Option.some_bind]
      cases collectKVs l2 <;> simp
  | l :: rest, l2 => by
      cases hl : lineStep l with
      | none => simp [collectKVs, hl]
      | some o =>
        cases o with
        | none => simp [collectKVs, hl, collectKVs_append rest l2]
        | some kv =>
            have ih := collectKVs_append rest l2
            simp only [List.cons_append, collectKVs, hl, ih]
            cases hr : collectKVs rest <;> cases hc : collectKVs l2 <;>
              simp [ih, hr, hc]

theorem countKV_append (a b : List (String × String)) (d p : String) :
    countKV (a ++ b) d p = countKV a d p + countKV b d p := by
  simp [countKV, List.filter_append]

/-! ## Claims C3 and C4 -/

/-- Claim C3: aggregation is idempotent — it is a pure function of the line
sequence, so rerunning it on an unchanged log gives an identical mapping —
and additive under log concatenation: whenever the two halves load
successfully, the concatenation loads successfully and its count for every
(day, project) pair is the sum of the two halves' counts. -/
theorem load_activity_idempotent_additive (l l1 l2 : List LogLine)
    (a1 a2 : DayAgg) (h1 : load_activity l1 = some a1)
    (h2 : load_activity l2 = some a2) (d p : String) :
    load_activity l = load_activity l ∧
    (load_activity (l1 ++ l2)).isSome = true ∧
    countOf ((load_activity (l1 ++ l2)).getD []) d p =
      countOf a1 d p + countOf a2 d p := by
  obtain ⟨p1, hp1, ha1⟩ : ∃ p1, collectKVs l1 = some p1 ∧
      a1 = sortDays (buildAgg p1) := by
    unfold load_activity at h1
    cases hc : collectKVs l1 with
    | none => rw [hc] at h1; simp at h1
    | some q => rw [hc] at h1; simp at h1; exact ⟨q, rfl, h1.symm⟩
  obtain ⟨p2, hp2, ha2⟩ : ∃ p2, collectKVs l2 = some p2 ∧
      a2 = sortDays (buildAgg p2) := by
    unfold load_activity at h2
    cases hc : collectKVs l2 with
    | none => rw [hc] at h2; simp at h2
    | some q => rw [hc] at h2; simp at h2; exact ⟨q, rfl, h2.symm⟩
  have happ : collectKVs (l1 ++ l2) = some (p1 ++ p2) := by
    rw [collectKVs_append, hp1, hp2]
    rfl
  refine ⟨rfl, by simp [load_activity, happ], ?_⟩
  subst ha1
  subst ha2
  have hload : load_activity (l1 ++ l2) = some (sortDays (buildAgg (p1 ++ p2))) := by
    rw [load_activity, happ]
    rfl
  rw [hload]
  simp only [Option.getD_some]
  rw [countOf_loadAgg, countOf_loadAgg, countOf_loadAgg, countKV_append]

/-- Witness for C3: concatenating two one-line logs for the same day and
project sums the counts. -/
theorem load_activity_idempotent_additive_witness :
    (load_activity ([LogLine.obj (some "2024-01-01") (some "A")] ++
        [LogLine.obj (some "2024-01-01") (some "A")])).isSome = true ∧
    countOf ((load_activity ([LogLine.obj (some "2024-01-01") (some "A")] ++
        [LogLine.obj (some "2024-01-01") (some "A")])).getD []) "2024-01-01" "A" =
      countOf [("2024-01-01", [("A", 1)])] "2024-01-01" "A" +
        countOf [("2024-01-01", [("A", 1)])] "2024-01-01" "A" := by
  have h := load_activity_idempotent_additive
    [LogLine.obj (some "2024-01-01") (some "A")]
    [LogLine.obj (some "2024-01-01") (some "A")]
    [LogLine.obj (some "2024-01-01") (some "A")]
    [("2024-01-01", [("A", 1)])] [("2024-01-01", [("A", 1)])]
    (by decide) (by decide) "2024-01-01" "A"
  exact ⟨h.2.1, h.2.2⟩

/-- Claim C4 fails on the code: `load_activity` skips blank lines, lines
that are not JSON (`json.JSONDecodeError` is caught), and objects missing a
`date`/`project` field — but a line holding valid JSON that is not an
object (for example `42`) makes `entry.get` raise an uncaught
`AttributeError`, aborting the entire aggregation rather than being
skipped.  This theorem evaluates the embedded code: the benign malformed
lines are dropped without changing the result, while the scalar line kills
the load. -/
theorem load_activity_scalar_abort :
    load_activity [LogLine.obj (some "2024-01-04") (some "alpha"), LogLine.junk,
        LogLine.obj (some "2024-01-05") (some "beta")] =
      load_activity [LogLine.obj (some "2024-01-04") (some "alpha"),
        LogLine.obj (some "2024-01-05") (some "beta")] ∧
    load_activity [LogLine.obj (some "2024-01-04") (some "alpha"),
        LogLine.obj none (some "x"),
        LogLine.obj (some "2024-01-05") (some "beta")] =
      load_activity [LogLine.obj (some "2024-01-04") (some "alpha"),
        LogLine.obj (some "2024-01-05") (some "beta")] ∧
    load_activity [LogLine.obj (some "2024-01-04") (some "alpha"),
        LogLine.obj (some "2024-01-05") (some "beta")] ≠ none ∧
    load_activity [LogLine.obj (some "2024-01-04") (some "alpha"), LogLine.scalar,
        LogLine.obj (some "2024-01-05") (some "beta")] = none := by
  refine ⟨by decide, by decide, by decide, by decide⟩

/-! ## Helper lemmas: the per-day stable sort and cell construction -/

theorem filter_orderedInsert (c : Nat) (x : String × Nat) :
    ∀ l : List (String × Nat),
      (List.orderedInsert descCount x l).filter (fun e => e.2 == c) =
        if x.2 = c then x :: l.filter (fun e => e.2 == c)
        else l.filter (fun e => e.2 == c)
  | [] => by
      by_cases h : x.2 = c
      · simp [List.orderedInsert, List.filter, h]
      · have hb : (x.2 == c) = false := by simpa using h
        simp [List.orderedInsert, List.filter, h, hb]
  | y :: ys => by
      by_cases hr : descCount x y
      · simp only [List.orderedInsert, if_pos hr]
        by_cases h : x.2 = c
        · simp [List.filter_cons, h]
        · simp [List.filter_cons, h]
      · have hlt : x.2 < y.2 := Nat.not_le.mp hr
        simp only [List.orderedInsert, if_neg hr]
        by_cases hy : y.2 = c
        · have hx : ¬ x.2 = c := by omega
          simp [List.filter_cons, hy, hx, filter_orderedInsert c x ys]
        · simp [List.filter_cons, hy, filter_orderedInsert c x ys]

theorem filter_sortDesc (c : Nat) :
    ∀ l : List (String × Nat),
      (sortDesc l).filter (fun e => e.2 == c) = l.filter (fun e => e.2 == c)
  | [] => rfl
  | x :: l => by
      have ih := filter_sortDesc c l
      simp only [sortDesc, List.insertionSort] at ih ⊢
      rw [filter_orderedInsert c x (List.insertionSort descCount l), ih]
      by_cases h : x.2 = c
      · simp [List.filter_cons, h]
      · simp [List.filter_cons, h]

theorem cellFor_title (cIdx : String → Nat) (date : String)
    (projs : List (String × Nat)) (h : projs ≠ []) :
    cellTitle (cellFor cIdx date projs) = date ++ ": " ++ tipFor (sortDesc projs) := by
  rcases hs : sortDesc projs with _ | ⟨⟨p, c⟩, rest⟩
  · simp [cellFor, h, hs, cellTitle]
  · cases rest with
    | nil => simp [cellFor, h, hs, cellTitle]
    | cons b rest2 => simp [cellFor, h, hs, cellTitle]

theorem cellFor_multi (cIdx : String → Nat) (date : String)
    (projs : List (String × Nat)) (a b : String × Nat) (l : List (String × Nat))
    (hs : sortDesc projs = a :: b :: l) :
    cellFor cIdx date projs =
      Cell.multi (intensity (projs.map Prod.snd).sum)
        (bandStops cIdx (intensity (projs.map Prod.snd).sum)
          ((projs.map Prod.snd).sum : ℚ) (a :: b :: l) 0)
        (date ++ ": " ++ tipFor (a :: b :: l)) := by
  have h : projs ≠ [] := by
    intro he
    subst he
    simp [sortDesc, List.insertionSort] at hs
  simp [cellFor, h, hs]

/-! ## Claims C6 and C7 -/

/-- Counterexample to claim C6: on the log `c6Lines` the aggregation's
first-appearance order is `["A", "B"]` (A appears on the earlier day), but
day 2024-01-02's bucket is `[(B, 1), (A, 1)]` (B's line came first that
day), and the layout's stable count sort leaves the tie in bucket order —
`B` before `A` — while the claimed order (descending count, ties by global
first-appearance) would put `A` first.  The two orders differ. -/
theorem day_order_tiebreak_counterexample :
    project_order ((load_activity c6Lines).getD []) = ["A", "B"] ∧
    lookupA ((load_activity c6Lines).getD []) "2024-01-02" = some [("B", 1), ("A", 1)] ∧
    sortDesc [("B", 1), ("A", 1)] = [("B", 1), ("A", 1)] ∧
    claimedDayOrder ["A", "B"] [("B", 1), ("A", 1)] = [("A", 1), ("B", 1)] ∧
    sortDesc [("B", 1), ("A", 1)] ≠ claimedDayOrder ["A", "B"] [("B", 1), ("A", 1)] := by
  refine ⟨by decide, by decide, by decide, by decide, by decide⟩

/-- Claim C6 (amended): for every day bucket the layout's order is the
stable descending-count sort of the bucket — a permutation, sorted by
non-increasing count, with ties kept in the bucket's insertion order (the
projects' first-appearance order within that day), not in global
first-appearance order — and this order determines both the tooltip text
and the gradient band stacking of the cell. -/
theorem day_order_stable_sort_amended (projs : List (String × Nat))
    (date : String) (cIdx : String → Nat) :
    List.Perm (sortDesc projs) projs ∧
    (sortDesc projs).Sorted descCount ∧
    (∀ c : Nat, (sortDesc projs).filter (fun e => e.2 == c) =
      projs.filter (fun e => e.2 == c)) ∧
    (projs ≠ [] →
      cellTitle (cellFor cIdx date projs) = date ++ ": " ++ tipFor (sortDesc projs)) ∧
    (∀ a b l, sortDesc projs = a :: b :: l →
      cellFor cIdx date projs =
        Cell.multi (intensity (projs.map Prod.snd).sum)
          (bandStops cIdx (intensity (projs.map Prod.snd).sum)
            ((projs.map Prod.snd).sum : ℚ) (a :: b :: l) 0)
          (date ++ ": " ++ tipFor (a :: b :: l))) :=
  ⟨List.perm_insertionSort descCount projs,
   List.sorted_insertionSort descCount projs,
   fun c => filter_sortDesc c projs,
   cellFor_title cIdx date projs,
   fun a b l hs => cellFor_multi cIdx date projs a b l hs⟩

/-- Witness for C6 (amended) on the bucket `[(B, 1), (A, 2)]`: its sorted
order is `[(A, 2), (B, 1)]`, which drives the title and the band stops. -/
theorem day_order_stable_sort_amended_witness :
    cellTitle (cellFor (fun _ => 0) "2024-01-02" [("B", 1), ("A", 2)]) =
      "2024-01-02" ++ ": " ++ tipFor (sortDesc [("B", 1), ("A", 2)]) ∧
    cellFor (fun _ => 0) "2024-01-02" [("B", 1), ("A", 2)] =
      Cell.multi (intensity ([("B", 1), ("A", 2)].map Prod.snd).sum)
        (bandStops (fun _ => 0) (intensity ([("B", 1), ("A", 2)].map Prod.snd).sum)
          (((([("B", 1), ("A", 2)] : List (String × Nat)).map Prod.snd).sum : Nat) : ℚ)
          [("A", 2), ("B", 1)] 0)
        ("2024-01-02" ++ ": " ++ tipFor [("A", 2), ("B", 1)]) :=
  ⟨(day_order_stable_sort_amended [("B", 1), ("A", 2)] "2024-01-02" (fun _ => 0)).2.2.2.1
      (by decide),
   (day_order_stable_sort_amended [("B", 1), ("A", 2)] "2024-01-02" (fun _ => 0)).2.2.2.2
      ("A", 2) ("B", 1) [] (by decide)⟩

/-- Claim C7: the intensity tier is `high` for T ≥ 10, `mid` for 3 ≤ T < 10
and `low` for 0 < T < 3; and on the 8 × alpha / 2 × beta log the 2024-01-05
cell is a `high`-tier cell with exactly two proportional vertical bands —
alpha the top 80 %, beta the bottom 20 % (gradient stops 0 %–80 % and
80 %–100 %) — and tooltip `2024-01-05: alpha: 8, beta: 2`. -/
theorem day_cell_scenario_and_tiers :
    (∀ T : Nat, 10 ≤ T → intensity T = "high") ∧
    (∀ T : Nat, 3 ≤ T → T < 10 → intensity T = "mid") ∧
    (∀ T : Nat, 0 < T → T < 3 → intensity T = "low") ∧
    cellFor (fun p => (project_order ((load_activity c7Lines).getD [])).indexOf p)
        "2024-01-05" ((lookupA ((load_activity c7Lines).getD []) "2024-01-05").getD []) =
      Cell.multi "high"
        [("hsl(0, 55%, 55%)", 0), ("hsl(0, 55%, 55%)", 80),
         ("hsl(30, 55%, 55%)", 80), ("hsl(30, 55%, 55%)", 100)]
        "2024-01-05: alpha: 8, beta: 2" := by
  refine ⟨?_, ?_, ?_, ?_⟩
  · intro T h
    simp [intensity, h]
  · intro T h1 h2
    have h3 : ¬ 10 ≤ T := by omega
    simp [intensity, h1, h3]
  · intro T h1 h2
    have h3 : ¬ 10 ≤ T := by omega
    have h4 : ¬ 3 ≤ T := by omega
    simp [intensity, h3, h4]
  · have hpo : project_order ((load_activity c7Lines).getD []) = ["alpha", "beta"] := by
      decide
    have hlook : (lookupA ((load_activity c7Lines).getD []) "2024-01-05").getD [] =
        [("alpha", 8), ("beta", 2)] := by decide
    simp only [hpo, hlook]
    have hsort : sortDesc [("alpha", 8), ("beta", 2)] = [("alpha", 8), ("beta", 2)] := by
      decide
    rw [cellFor_multi _ _ _ ("alpha", 8) ("beta", 2) [] hsort]
    have hsum : (([("alpha", 8), ("beta", 2)].map Prod.snd).sum) = 10 := by decide
    rw [hsum]
    have hint : intensity 10 = "high" := by decide
    rw [hint]
    have htip : "2024-01-05" ++ ": " ++ tipFor [("alpha", 8), ("beta", 2)] =
        "2024-01-05: alpha: 8, beta: 2" := by decide
    rw [htip]
    have hcA : colorFor (fun p => List.indexOf p ["alpha", "beta"]) "high" "alpha" =
        "hsl(0, 55%, 55%)" := by decide
    have hcB : colorFor (fun p => List.indexOf p ["alpha", "beta"]) "high" "beta" =
        "hsl(30, 55%, 55%)" := by decide
    simp only [bandStops, hcA, hcB]
    norm_num

/-- Witness for C7's tier clauses at T = 10, 5 and 2. -/
theorem day_cell_scenario_and_tiers_witness :
    intensity 10 = "high" ∧ intensity 5 = "mid" ∧ intensity 2 = "low" :=
  ⟨day_cell_scenario_and_tiers.1 10 (by decide),
   day_cell_scenario_and_tiers.2.1 5 (by decide) (by decide),
   day_cell_scenario_and_tiers.2.2.1 2 (by decide) (by decide)⟩

/-! ## Helper lemmas: the month range -/

theorem getLast?_cons_ne {α : Type} (a : α) (l : List α) (h : l ≠ []) :
    (a :: l).getLast? = l.getLast? := by
  cases l with
  | nil => exact absurd rfl h
  | cons b t => exact List.getLast?_cons_cons

theorem ofIdx_self (y m : Int) (h1 : 1 ≤ m) (h2 : m ≤ 12) :
    ofIdx (y * 12 + m) = (y, m) := by
  unfold ofIdx
  refine Prod.ext ?_ ?_ <;> simp <;> omega

theorem monthsFrom_head (y m : Int) (k : Nat) :
    (monthsFrom y m (k + 1)).head? = some (y, m) := by
  simp [monthsFrom]

theorem monthsFrom_ne_nil (y m : Int) (k : Nat) : monthsFrom y m (k + 1) ≠ [] := by
  simp only [monthsFrom]
  by_cases hm : 12 ≤ m <;> simp [hm]

theorem monthsFrom_spec :
    ∀ (k : Nat) (y m : Int), 1 ≤ m → m ≤ 12 →
      (monthsFrom y m (k + 1)).getLast? = some (ofIdx (y * 12 + m + k)) ∧
      List.Chain' (fun a b : Int × Int => a.1 * 12 + a.2 < b.1 * 12 + b.2)
        (monthsFrom y m (k + 1))
  | 0, y, m, h1, h2 => by
      constructor
      · simp [monthsFrom, ofIdx_self y m h1 h2]
      · simp [monthsFrom]
  | (k + 1), y, m, h1, h2 => by
      by_cases hm : 12 ≤ m
      · have hm12 : m = 12 := le_antisymm h2 hm
        subst hm12
        have ih := monthsFrom_spec k (y + 1) 1 (by omega) (by omega)
        have hcons : monthsFrom y 12 (k + 1 + 1) = (y, 12) :: monthsFrom (y + 1) 1 (k + 1) := by
          simp [monthsFrom]
        constructor
        · rw [hcons, getLast?_cons_ne _ _ (monthsFrom_ne_nil _ _ _), ih.1]
          have harg : (y + 1) * 12 + 1 + (k : Int) = y * 12 + 12 + ((k : Int) + 1) := by
            ring
          rw [harg]
          push_cast
          ring_nf
        · rw [hcons]
          rw [List.chain'_cons']
          refine ⟨?_, ih.2⟩
          intro b hb
          rw [monthsFrom_head] at hb
          simp at hb
          subst hb
          simp
          omega
      · have ih := monthsFrom_spec k y (m + 1) (by omega) (by omega)
        have hcons : monthsFrom y m (k + 1 + 1) = (y, m) :: monthsFrom y (m + 1) (k + 1) := by
          simp [monthsFrom, hm]
        constructor
        · rw [hcons, getLast?_cons_ne _ _ (monthsFrom_ne_nil _ _ _), ih.1]
          have harg : y * 12 + (m + 1) + (k : Int) = y * 12 + m + ((k : Int) + 1) := by
            ring
          rw [harg]
          push_cast
          ring_nf
        · rw [hcons]
          rw [List.chain'_cons']
          refine ⟨?_, ih.2⟩
          intro b hb
          rw [monthsFrom_head] at hb
          simp at hb
          subst hb
          simp

/-! ## Claim C8 -/

/-- Claim C8: with an empty aggregation and today = 2024-03-15 the layout
covers exactly the thirteen months 2023-03 .. 2024-03 in chronological
order, every cell of every month row is a padding or no-activity cell, and
the legend is empty; in general the month range is the loop from the month
of the first recorded day — or of the day 365 days before today when there
are no records — through today's month inclusive, in strictly increasing
month order. -/
theorem layout_month_range :
    monthsOf [] (2024, 3, 15) = expectedMonths ∧
    (generateLayout [] (2024, 3, 15)).2 = [] ∧
    ((generateLayout [] (2024, 3, 15)).1.all (fun row => row.2.all isEmptyCell)) = true ∧
    (∀ (agg : DayAgg) (today : Int × Int × Int),
      monthsOf agg today =
        monthsLoop (firstDay agg today).1 (firstDay agg today).2.1 today.1 today.2.1) ∧
    (∀ today : Int × Int × Int,
      firstDay [] today =
        civilFromDays (daysFromCivil today.1 today.2.1 today.2.2 - 365)) ∧
    (∀ y m ey em : Int, 1 ≤ m → m ≤ 12 → 1 ≤ em → em ≤ 12 →
      y * 12 + m ≤ ey * 12 + em →
      (monthsLoop y m ey em).head? = some (y, m) ∧
      (monthsLoop y m ey em).getLast? = some (ey, em) ∧
      List.Chain' (fun a b : Int × Int => a.1 * 12 + a.2 < b.1 * 12 + b.2)
        (monthsLoop y m ey em)) := by
  refine ⟨by decide, by decide, by decide, fun agg today => rfl, fun today => rfl, ?_⟩
  intro y m ey em h1 h2 h3 h4 hle
  have hfuel : ((ey * 12 + em) - (y * 12 + m) + 1).toNat =
      ((ey * 12 + em) - (y * 12 + m)).toNat + 1 := by omega
  have hcast : (((ey * 12 + em) - (y * 12 + m)).toNat : Int) =
      (ey * 12 + em) - (y * 12 + m) := by omega
  have hspec := monthsFrom_spec ((ey * 12 + em) - (y * 12 + m)).toNat y m h1 h2
  have harg : y * 12 + m + (((ey * 12 + em) - (y * 12 + m)).toNat : Int) =
      ey * 12 + em := by omega
  unfold monthsLoop
  rw [hfuel]
  refine ⟨monthsFrom_head y m _, ?_, hspec.2⟩
  rw [hspec.1, harg, ofIdx_self ey em h3 h4]

/-- Witness for C8's general month-range clause on the scenario's own range
2023-03 .. 2024-03. -/
theorem layout_month_range_witness :
    (monthsLoop 2023 3 2024 3).head? = some (2023, 3) ∧
    (monthsLoop 2023 3 2024 3).getLast? = some (2024, 3) :=
  ⟨(layout_month_range.2.2.2.2.2 2023 3 2024 3 (by decide) (by decide) (by decide)
      (by decide) (by decide)).1,
   (layout_month_range.2.2.2.2.2 2023 3 2024 3 (by decide) (by decide) (by decide)
      (by decide) (by decide)).2.1⟩

end DevActivity
